import Mathlib

/-!
Verification development for the youtube-video-data-scraper repository.

The Python sources (`youtube_scraper.py`, `app.py`) are embedded shallowly:

* strings are Lean `String`s, manipulated through their `List Char` data;
* Python `int` is `Int` (values here are small and non-negative);
* Python `float` is IEEE-754 binary64, modelled exactly: a non-negative
  double is `PyFloat` (a finite rational of the form `m * 2 ^ e` with
  `m < 2 ^ 53`, or infinity), `float()` of a decimal string and each
  multiplication round the exact rational value to the nearest double
  (ties to even, subnormals and overflow included) via `roundB64`, and
  `int()` truncates toward zero, raising on infinity;
* a `try`/`except` body is a function returning `Option`/`Except`, with
  `none`/`.error` standing for a raised exception;
* the Selenium driver and the MySQL connection are oracles passed in as
  explicit arguments (query functions and `Except`-valued actions);
* the regular expression `\d+[,.]?\d*[KkMm]?` of `re.findall` is modelled
  by an explicit leftmost-greedy matcher over `List Char` (with `\d` read
  as the ASCII digits, which is what the scraped pages contain).
-/

namespace YTScraper

/-- ASCII whitespace stripped by Python `str.strip()`. -/
def isPySpace (c : Char) : Bool :=
  c = ' ' || c = '\t' || c = '\n' || c = '\x0d' || c = '\x0b' || c = '\x0c'

/-- Model of Python `str.strip()` on a character list. -/
def stripChars (cs : List Char) : List Char :=
  ((cs.dropWhile isPySpace).reverse.dropWhile isPySpace).reverse

/-- Model of Python `str.strip()`. -/
def pyStrip (s : String) : String :=
  String.mk (stripChars s.data)

/-- Model of Python `str.lower()` (ASCII case folding). -/
def pyLower (s : String) : String :=
  String.mk (s.data.map Char.toLower)

/-- Model of Python `needle in haystack` on character lists. -/
def containsSub (nd : List Char) : List Char → Bool
  | [] => nd.isEmpty
  | c :: t => nd.isPrefixOf (c :: t) || containsSub nd t

/-- Model of Python `needle in haystack` for strings. -/
def containsSubStr (nd hay : String) : Bool :=
  containsSub nd.data hay.data

/-- Numeric value of a run of ASCII digit characters, as `int()` reads it. -/
def digitsVal (cs : List Char) : ℕ :=
  cs.foldl (fun a c => 10 * a + (c.toNat - 48)) 0

/-- The optional trailing `[KkMm]?` of the regex `\d+[,.]?\d*[KkMm]?`. -/
def matchSuffix : List Char → List Char
  | [] => []
  | c :: _ => if c = 'K' ∨ c = 'k' ∨ c = 'M' ∨ c = 'm' then [c] else []

/-- The part of the regex `\d+[,.]?\d*[KkMm]?` after the leading digit run:
an optional separator, a digit run, and the optional magnitude suffix,
all matched greedily. -/
def matchAfterDigits : List Char → List Char
  | [] => []
  | c :: rest =>
    if c = ',' ∨ c = '.' then
      (c :: rest.takeWhile Char.isDigit) ++ matchSuffix (rest.dropWhile Char.isDigit)
    else
      matchSuffix (c :: rest)

/-- Greedy match of `\d+[,.]?\d*[KkMm]?` at a position starting with a digit. -/
def matchNumber (cs : List Char) : List Char :=
  cs.takeWhile Char.isDigit ++ matchAfterDigits (cs.dropWhile Char.isDigit)

/-- Leftmost match of `re.findall(r'\d+[,.]?\d*[KkMm]?', s)`, i.e. the
`numbers[0]` the parser uses; `none` when the list of matches is empty. -/
def firstNumberMatch : List Char → Option (List Char)
  | [] => none
  | c :: rest =>
    if c.isDigit then some (matchNumber (c :: rest)) else firstNumberMatch rest

/-- The exact rational value of the decimal numerals the parser hands to
Python `float(s)` (`digits`, optionally followed by `.` and more digits);
`none` is a raised `ValueError`. -/
def decimalValue (cs : List Char) : Option ℚ :=
  let d1 := cs.takeWhile Char.isDigit
  if d1 = [] then none
  else
    match cs.dropWhile Char.isDigit with
    | [] => some (digitsVal d1)
    | c :: d2 =>
      if c = '.' ∧ d2.all Char.isDigit then
        some ((digitsVal d1 : ℚ) + (digitsVal d2 : ℚ) / (10 : ℚ) ^ d2.length)
      else none

/-- A non-negative IEEE-754 binary64 value as the source manipulates it:
a finite double, carried as its exact rational value, or `+inf`. -/
inductive PyFloat where
  | finite (val : ℚ)
  | inf
deriving DecidableEq

/-- Round a rational to the nearest integer, ties to even — the rounding
of the binary64 significand. -/
def roundHalfEven (q : ℚ) : ℤ :=
  let f := ⌊q⌋
  if q - f < 1 / 2 then f
  else if 1 / 2 < q - f then f + 1
  else if f % 2 = 0 then f else f + 1

/-- Round a positive rational to binary64, to nearest with ties to even:
the unit in the last place is `2 ^ (e - 52)` for a value in
`[2 ^ e, 2 ^ (e + 1))` down to the subnormal range, where it is fixed at
`2 ^ (-1074)`; a rounded value of `2 ^ 1024` or more overflows to
infinity. -/
def roundB64Pos (q : ℚ) : PyFloat :=
  let se := max (Int.log 2 q - 52) (-1074)
  let m := roundHalfEven (q / 2 ^ se)
  if (2 : ℚ) ^ (1024 : ℤ) ≤ (m : ℚ) * 2 ^ se then .inf
  else .finite ((m : ℚ) * 2 ^ se)

/-- Round any rational to the nearest binary64 (negative values by the
sign symmetry of round-to-nearest; the parsers only ever produce
non-negative values). -/
def roundB64 (q : ℚ) : PyFloat :=
  if q = 0 then .finite 0
  else if 0 < q then roundB64Pos q
  else
    match roundB64Pos (-q) with
    | .finite r => .finite (-r)
    | .inf => .inf

/-- Binary64 multiplication by the exactly representable positive factor
the source uses (1000 or 1000000): the exact product is rounded once, as
IEEE-754 prescribes; infinity times a positive number stays infinity. -/
def b64Mul (x : PyFloat) (n : ℚ) : PyFloat :=
  match x with
  | .finite a => roundB64 (a * n)
  | .inf => .inf

/-- Python `int()` truncation toward zero on a rational. -/
def pyTrunc (q : ℚ) : ℤ :=
  if q < 0 then -⌊-q⌋ else ⌊q⌋

/-- Model of Python `float(s)` on the residual numerals the parser builds:
the exact decimal value, correctly rounded to binary64 (CPython's float
constructor is correctly rounded); `none` is a raised `ValueError`. -/
def pyFloatOfChars (cs : List Char) : Option PyFloat :=
  match decimalValue cs with
  | none => none
  | some v => some (roundB64 v)

/-- The integer the source computes from a parsed value `v` and a scale
`n`: `int(float(s) * n)` — `v` rounded to binary64, multiplied by `n` in
binary64, truncated toward zero; 0 when the product overflows to
infinity, since `int(inf)` raises and the `except` returns 0. -/
def b64ScaledTrunc (v n : ℚ) : ℤ :=
  match b64Mul (roundB64 v) n with
  | .finite r => pyTrunc r
  | .inf => 0

/-- Model of Python `int(s)` on a string: succeeds only on all-digit input;
`none` is a raised `ValueError`. -/
def pyIntOfChars (cs : List Char) : Option ℤ :=
  if cs ≠ [] ∧ cs.all Char.isDigit then some (digitsVal cs) else none

/-- The body of `parse_video_count` on the character list of its input:
take the first regex match, drop commas, lowercase, then scale by 1000
for a `k`, by 1000000 for an `m`, else read as a plain integer; every
failure path returns 0. -/
def parseCountChars (cs : List Char) : ℤ :=
  match firstNumberMatch cs with
  | none => 0
  | some m =>
    let ct := (m.filter (fun c => c ≠ ',')).map Char.toLower
    if 'k' ∈ ct then
      match pyFloatOfChars (ct.filter (fun c => c ≠ 'k')) with
      | some f =>
        match b64Mul f 1000 with
        | .finite r => pyTrunc r
        | .inf => 0
      | none => 0
    else if 'm' ∈ ct then
      match pyFloatOfChars (ct.filter (fun c => c ≠ 'm')) with
      | some f =>
        match b64Mul f 1000000 with
        | .finite r => pyTrunc r
        | .inf => 0
      | none => 0
    else
      match pyIntOfChars ct with
      | some n => n
      | none => 0

/-- The body of `parse_likes_count`, character-for-character the body of
`parse_video_count` (as in the source). -/
def parseLikesChars (cs : List Char) : ℤ :=
  match firstNumberMatch cs with
  | none => 0
  | some m =>
    let ct := (m.filter (fun c => c ≠ ',')).map Char.toLower
    if 'k' ∈ ct then
      match pyFloatOfChars (ct.filter (fun c => c ≠ 'k')) with
      | some f =>
        match b64Mul f 1000 with
        | .finite r => pyTrunc r
        | .inf => 0
      | none => 0
    else if 'm' ∈ ct then
      match pyFloatOfChars (ct.filter (fun c => c ≠ 'm')) with
      | some f =>
        match b64Mul f 1000000 with
        | .finite r => pyTrunc r
        | .inf => 0
      | none => 0
    else
      match pyIntOfChars ct with
      | some n => n
      | none => 0

/-- Embedding of `YouTubeScraper.parse_video_count` (youtube_scraper.py,
lines 135-152). -/
def parse_video_count (count_text : String) : ℤ :=
  parseCountChars count_text.data

/-- Embedding of `YouTubeScraper.parse_likes_count` (youtube_scraper.py,
lines 261-278). -/
def parse_likes_count (likes_text : String) : ℤ :=
  parseLikesChars likes_text.data


/-! ### Selector-fallback extraction (`_get_video_title`, `_get_video_details`) -/

/-- The `find_element(By.CSS_SELECTOR, sel)` oracle for a loaded video page:
`none` is a raised `NoSuchElementException`, `some t` an element whose
`.text` is `t`. -/
def TextQuery := String → Option String

/-- The selector loop shared by `_get_video_title` and `_get_video_details`:
return the stripped text of the first selector whose element is found and
has non-empty stripped text, else the default. -/
def selectorLoop (q : TextQuery) : List String → String → String
  | [], default => default
  | sel :: rest, default =>
    match q sel with
    | none => selectorLoop q rest default
    | some t => if pyStrip t ≠ "" then pyStrip t else selectorLoop q rest default

/-- The title selector list of `_get_video_title` (youtube_scraper.py 188-194). -/
def titleSelectors : List String :=
  ["h1 yt-formatted-string", "h1.title", "h1",
   "ytd-video-primary-info-renderer h1", "#title h1"]

/-- Embedding of `YouTubeScraper._get_video_title` (lines 184-206). -/
def get_video_title (q : TextQuery) : String :=
  selectorLoop q titleSelectors "Unknown Title"

/-- The description selector list of `_get_video_details` (lines 212-217). -/
def detailSelectors : List String :=
  ["#description", "ytd-video-description-renderer", "#content", ".video-description"]

/-- Embedding of `YouTubeScraper._get_video_details` (lines 208-229). -/
def get_video_details (q : TextQuery) : String :=
  selectorLoop q detailSelectors "No description available"

/-! ### Likes extraction (`_get_video_likes`) -/

/-- An element returned by `find_elements` in the likes loop: its
`aria-label` attribute (`none` when absent) and its `.text`. -/
structure LikeElem where
  ariaLabel : Option String
  text : String

/-- `element.get_attribute("aria-label") or element.text`: Python `or`
falls through on `None` and on the empty string. -/
def likeElemText (e : LikeElem) : String :=
  match e.ariaLabel with
  | some a => if a = "" then e.text else a
  | none => e.text

/-- The likes selector list of `_get_video_likes` (lines 239-245). -/
def likesSelectors : List String :=
  ["ytd-toggle-button-renderer yt-formatted-string",
   "#text.ytd-toggle-button-renderer",
   "span.yt-core-attributed-string",
   "button[aria-label*='like']",
   "div#top-level-buttons yt-formatted-string"]

/-- The inner element loop of `_get_video_likes`: the first element whose
text is non-empty and mentions `like` is parsed and returned. -/
def likesScan : List LikeElem → Option ℤ
  | [] => none
  | e :: rest =>
    let t := likeElemText e
    if t ≠ "" ∧ (containsSubStr "like" (pyLower t) ∨ containsSubStr "likes" (pyLower t)) then
      some (parse_likes_count t)
    else likesScan rest

/-- The selector loop of `_get_video_likes`; `qe sel = none` is a raised
exception for that selector (caught by `continue`). -/
def likesLoop (qe : String → Option (List LikeElem)) : List String → ℤ
  | [] => 0
  | sel :: rest =>
    match qe sel with
    | none => likesLoop qe rest
    | some es =>
      match likesScan es with
      | some v => v
      | none => likesLoop qe rest

/-- Embedding of `YouTubeScraper._get_video_likes` (lines 231-259):
`scrollOk = false` is the initial `execute_script` raising, which the
outer handler turns into 0. -/
def get_video_likes (scrollOk : Bool) (qe : String → Option (List LikeElem)) : ℤ :=
  if scrollOk then likesLoop qe likesSelectors else 0

/-! ### Comments extraction (`get_video_comments`) -/

/-- A stored comment row: `person_name` and `comment` text. -/
structure CommentRec where
  person_name : String
  comment : String
deriving DecidableEq

/-- A DOM element in the comments loop: its `.text` and the text of the
author element when the author lookup succeeds (`none` is a raised
exception, turned into `"Unknown User"`). -/
structure CElem where
  text : String
  author : Option String

/-- The comment selector list of `get_video_comments` (lines 293-300). -/
def commentSelectors : List String :=
  ["ytd-comment-thread-renderer", "#content-text",
   "yt-formatted-string#content-text", "div#content-text",
   "ytd-comment-renderer", "#content-text.style-scope.ytd-comment-renderer"]

/-- One comment element: kept when its stripped text is non-empty and
longer than 10 characters. -/
def commentFromElem (e : CElem) : Option CommentRec :=
  let t := pyStrip e.text
  if t ≠ "" ∧ t.length > 10 then
    some ⟨(e.author.map pyStrip).getD "Unknown User", t⟩
  else none

/-- The inner element loop of `get_video_comments`: accumulate usable
comments, stopping once `max_comments` are collected. -/
def commentLoop (maxC : ℕ) : List CElem → List CommentRec → List CommentRec
  | [], acc => acc
  | e :: rest, acc =>
    match commentFromElem e with
    | none => commentLoop maxC rest acc
    | some c =>
      if (acc ++ [c]).length ≥ maxC then acc ++ [c]
      else commentLoop maxC rest (acc ++ [c])

/-- The selector loop of `get_video_comments`: `qc sel = none` is the
`WebDriverWait` timing out for that selector; the loop stops at the first
selector producing at least one usable comment. -/
def commentSelectorLoop (maxC : ℕ) (qc : String → Option (List CElem)) :
    List String → List CommentRec
  | [] => []
  | sel :: rest =>
    match qc sel with
    | none => commentSelectorLoop maxC qc rest
    | some es =>
      let cs := commentLoop maxC (es.take maxC) []
      if cs.isEmpty then commentSelectorLoop maxC qc rest else cs

/-- The placeholder comment list of lines 343-346. -/
def placeholderComments : List CommentRec :=
  [⟨"Test User", "Comments could not be loaded automatically"⟩,
   ⟨"System", "Try manual inspection or check YouTube restrictions"⟩]

/-- Embedding of `YouTubeScraper.get_video_comments` (lines 280-348) at the
default `max_comments = 5`; `scrollOk = false` is the scrolling script
raising, caught by the outer handler with `comments` still empty.  The
placeholder substitution happens outside the `try`, so it runs on every
path. -/
def get_video_comments (scrollOk : Bool) (qc : String → Option (List CElem)) :
    List CommentRec :=
  let comments := if scrollOk then commentSelectorLoop 5 qc commentSelectors else []
  if comments.isEmpty then placeholderComments else comments

/-! ### `get_video_data` -/

/-- The record `get_video_data` returns on success (lines 173-178). -/
structure VideoData where
  title : String
  details : String
  likes : ℤ
  comments : List CommentRec

/-- The DOM oracles of one loaded video page. -/
structure Page where
  qText : TextQuery
  likesScrollOk : Bool
  qLikes : String → Option (List LikeElem)
  commentsScrollOk : Bool
  qComments : String → Option (List CElem)

/-- Embedding of `YouTubeScraper.get_video_data` (lines 154-182):
`nav = false` is `driver.get` raising, which the outer handler turns into
`None`; otherwise the four extractors run and none of them can raise. -/
def get_video_data (nav : Bool) (p : Page) : Option VideoData :=
  if nav then
    some { title := get_video_title p.qText
           details := get_video_details p.qText
           likes := get_video_likes p.likesScrollOk p.qLikes
           comments := get_video_comments p.commentsScrollOk p.qComments }
  else none

/-! ### Channel video count (`_find_video_count`, `get_channel_video_count`) -/

/-- Method 1 of `_find_video_count` (lines 109-118): element texts are
lowercased, filtered on containing `video`, parsed, and the first strictly
positive parse is returned. -/
def videoCountScan1 : List String → Option ℤ
  | [] => none
  | t :: rest =>
    let tl := pyLower t
    if containsSubStr "video" tl then
      let c := parse_video_count tl
      if c > 0 then some c else videoCountScan1 rest
    else videoCountScan1 rest

/-- Method 2 of `_find_video_count` (lines 120-130): meta `content`
attributes (with `None` read as `""` by Python `or`), filtered on their
lowercase form containing `video` but parsed unlowered. -/
def videoCountScan2 : List String → Option ℤ
  | [] => none
  | t :: rest =>
    if containsSubStr "video" (pyLower t) then
      let c := parse_video_count t
      if c > 0 then some c else videoCountScan2 rest
    else videoCountScan2 rest

/-- Embedding of `YouTubeScraper._find_video_count` (lines 106-133):
`m1`/`m2` are the two `find_elements` queries, `none` being a raised
exception (caught by the bare `except: pass`); the fallback is the
hard-coded default 100. -/
def find_video_count (m1 m2 : Option (List String)) : ℤ :=
  match (match m1 with | none => none | some ts => videoCountScan1 ts) with
  | some c => c
  | none =>
    match (match m2 with | none => none | some ts => videoCountScan2 ts) with
    | some c => c
    | none => 100

/-- Embedding of `YouTubeScraper.get_channel_video_count` (lines 89-104):
navigation failure (or any other escaping exception) yields 0. -/
def get_channel_video_count (nav : Except String (Option (List String) × Option (List String))) : ℤ :=
  match nav with
  | .error _ => 0
  | .ok (m1, m2) => find_video_count m1 m2


/-! ### Persistence (`save_channel_data`, database.py `channels` table) -/

/-- One row of the `channels` table (database.py lines 23-31); `id` is the
AUTO_INCREMENT primary key. -/
structure ChannelRow where
  id : ℕ
  name : String
  url : String
  video_count : ℤ
deriving DecidableEq

/-- The `channels` table together with the AUTO_INCREMENT counter; rows are
kept in insertion order, which is the order `fetchone` sees. -/
structure ChannelTable where
  rows : List ChannelRow
  nextId : ℕ
deriving DecidableEq

/-- Embedding of `YouTubeScraper.save_channel_data` (youtube_scraper.py,
lines 375-412) against a live database connection: `SELECT id FROM
channels WHERE url = %s` with `fetchone` is the first matching row; when
found, `UPDATE channels SET video_count = %s WHERE id = %s`; otherwise
`INSERT` with a fresh id, and `cursor.lastrowid` is returned. -/
def save_channel_data (channel_name channel_url : String) (video_count : ℤ)
    (db : ChannelTable) : Option ℕ × ChannelTable :=
  match db.rows.find? (fun r => r.url = channel_url) with
  | some r =>
    (some r.id,
     { db with rows := db.rows.map (fun x =>
         if x.id = r.id then { x with video_count := video_count } else x) })
  | none =>
    (some db.nextId,
     { rows := db.rows ++ [⟨db.nextId, channel_name, channel_url, video_count⟩],
       nextId := db.nextId + 1 })

/-! ### Flask layer (app.py) -/

/-- One entry of the `results` list built by `scrape_channels`: a success
entry carries the `channel_id` `process_channel` computed, a failure entry
carries `video_count` 0 and the exception string. -/
structure ChannelEntry where
  name : String
  url : String
  video_count : ℤ
  channel_id : Option ℤ
  error : Option String
deriving DecidableEq

/-- The global `scraping_results` dictionary of app.py (lines 14-19). -/
structure ScrapingResults where
  channels : List ChannelEntry
  video : Option VideoData
  status : String
  error : Option String

/-- The initial value of `scraping_results` (app.py lines 14-19). -/
def initialScrapingResults : ScrapingResults :=
  { channels := [], video := none, status := "idle", error := none }

/-- A `jsonify({'status': ..., 'message': ...})` response body. -/
structure Response where
  status : String
  message : String
deriving DecidableEq

/-- What a route handler produces: the response, how many background
worker threads it started, and the global state as the handler returns it
(the handler itself never mutates `scraping_results`; only a spawned
worker does, later). -/
structure RouteOutcome where
  response : Response
  threadsStarted : ℕ
  state : ScrapingResults

/-- The status whitelist of app.py lines 86 and 102. -/
def allowedStatuses : List String :=
  ["idle", "channels_complete", "video_complete", "error"]

/-- Embedding of the `/scrape_channels` handler `start_channel_scraping`
(app.py lines 84-94). -/
def start_channel_scraping (st : ScrapingResults) : RouteOutcome :=
  if st.status ∉ allowedStatuses then
    ⟨⟨"busy", "Scraping is already in progress"⟩, 0, st⟩
  else
    ⟨⟨"started", "Channel scraping started"⟩, 1, st⟩

/-- Embedding of the `/scrape_video` handler `start_video_scraping`
(app.py lines 96-110): `request.form.get('video_url')` is `none` when the
field is missing, and `if not video_url` also fires on the empty string. -/
def start_video_scraping (video_url : Option String) (st : ScrapingResults) :
    RouteOutcome :=
  if video_url = none ∨ video_url = some "" then
    ⟨⟨"error", "No video URL provided"⟩, 0, st⟩
  else if st.status ∉ allowedStatuses then
    ⟨⟨"busy", "Scraping is already in progress"⟩, 0, st⟩
  else
    ⟨⟨"started", "Video scraping started"⟩, 1, st⟩

/-- Embedding of the `/reset` handler `reset_scraper` (app.py lines
123-132): the previous state is discarded wholesale. -/
def reset_scraper (_st : ScrapingResults) : Response × ScrapingResults :=
  (⟨"reset", "Scraper reset successfully"⟩, initialScrapingResults)

/-- The hard-coded channel dictionary of `scrape_channels` (app.py lines
31-35), in insertion order. -/
def channelsConfig : List (String × String) :=
  [("iNeuron", "https://www.youtube.com/@iNeuroniNtelligence"),
   ("Krish Naik", "https://www.youtube.com/@krishnaik06"),
   ("College Wallah", "https://www.youtube.com/@CollegeWallahbyPW")]

/-- The per-channel loop of `scrape_channels` (app.py lines 37-50): `run`
is `scraper.process_channel`, whose exceptions are caught per channel and
recorded as an error entry with `video_count` 0. -/
def scrapeChannelsLoop (run : String → String → Except String ChannelEntry) :
    List (String × String) → List ChannelEntry
  | [] => []
  | (n, u) :: rest =>
    (match run n u with
     | .ok r => r
     | .error e => ⟨n, u, 0, none, some e⟩) :: scrapeChannelsLoop run rest

/-- Embedding of the worker `scrape_channels` (app.py lines 21-59): `ctor`
is the `YouTubeScraper()` construction and `close` the final
`scraper.close()`; either raising is caught by the outer handler, which
sets status `error`.  The `close` call happens after `channels` and
`status` are already assigned. -/
def scrape_channels (st : ScrapingResults) (ctor : Except String Unit)
    (run : String → String → Except String ChannelEntry)
    (close : Except String Unit) : ScrapingResults :=
  let st1 := { st with status := "scraping_channels", error := none }
  match ctor with
  | .error e => { st1 with status := "error", error := some e }
  | .ok _ =>
    let results := scrapeChannelsLoop run channelsConfig
    let st2 := { st1 with channels := results, status := "channels_complete" }
    match close with
    | .error e => { st2 with status := "error", error := some e }
    | .ok _ => st2

/-! ## Theorems -/

/-- C7: a GET to `/reset` unconditionally restores the initial global
state — `channels = []`, `video = None`, `status = 'idle'`,
`error = None` — regardless of the previous state, and responds with
status `reset`. -/
theorem reset_restores_initial_state (st : ScrapingResults) :
    reset_scraper st =
      (⟨"reset", "Scraper reset successfully"⟩,
       { channels := [], video := none, status := "idle", error := none }) := rfl

/-- C6: a POST to `/scrape_video` with a missing or empty `video_url` form
field returns the error response `No video URL provided`, spawns no
worker, and leaves the global state unchanged. -/
theorem video_scrape_missing_url (st : ScrapingResults) (u : Option String)
    (h : u = none ∨ u = some "") :
    start_video_scraping u st = ⟨⟨"error", "No video URL provided"⟩, 0, st⟩ := by
  unfold start_video_scraping
  rw [if_pos h]

/-- Witness for C6 at a concrete request and state. -/
theorem video_scrape_missing_url_witness :
    start_video_scraping none initialScrapingResults =
      ⟨⟨"error", "No video URL provided"⟩, 0, initialScrapingResults⟩ :=
  video_scrape_missing_url initialScrapingResults none (Or.inl rfl)

/-- C4 as stated is false: with a missing `video_url` and status
`scraping_channels` (not in the whitelist), `/scrape_video` answers
`error`, not `busy`, because the URL check precedes the status guard. -/
theorem video_busy_guard_iff_fails :
    ¬ ((((start_video_scraping none
            ⟨[], none, "scraping_channels", none⟩).response.status = "busy" ∧
         (start_video_scraping none
            ⟨[], none, "scraping_channels", none⟩).threadsStarted = 0) ↔
        ("scraping_channels" ∉ allowedStatuses))) := by
  simp [start_video_scraping, allowedStatuses]

/-- C4 amended: for `/scrape_channels` on any state, and for
`/scrape_video` whenever a non-empty `video_url` is supplied, the handler
answers `busy` and spawns no worker exactly when the status string is not
one of `idle`, `channels_complete`, `video_complete`, `error`; otherwise
it answers `started` and spawns exactly one background worker. -/
theorem scrape_start_busy_guard :
    (∀ st : ScrapingResults,
        (((start_channel_scraping st).response.status = "busy" ∧
          (start_channel_scraping st).threadsStarted = 0) ↔
         st.status ∉ allowedStatuses))
    ∧ (∀ st : ScrapingResults, st.status ∈ allowedStatuses →
        (start_channel_scraping st).response.status = "started" ∧
        (start_channel_scraping st).threadsStarted = 1)
    ∧ (∀ (st : ScrapingResults) (u : String), u ≠ "" →
        (((start_video_scraping (some u) st).response.status = "busy" ∧
          (start_video_scraping (some u) st).threadsStarted = 0) ↔
         st.status ∉ allowedStatuses))
    ∧ (∀ (st : ScrapingResults) (u : String), u ≠ "" → st.status ∈ allowedStatuses →
        (start_video_scraping (some u) st).response.status = "started" ∧
        (start_video_scraping (some u) st).threadsStarted = 1) := by
  refine ⟨fun st => ?_, fun st h => ?_, fun st u hu => ?_, fun st u hu h => ?_⟩
  · by_cases h : st.status ∈ allowedStatuses <;>
      simp [start_channel_scraping, h]
  · simp [start_channel_scraping, h]
  · by_cases h : st.status ∈ allowedStatuses <;>
      simp [start_video_scraping, hu, h]
  · simp [start_video_scraping, hu, h]

/-- Witness for the amended C4: a busy state makes a well-formed video
request answer `busy` with no worker, and an idle state makes a channel
request answer `started` with one worker. -/
theorem scrape_start_busy_guard_witness :
    ((start_video_scraping (some "https://youtu.be/x")
        ⟨[], none, "scraping_video", none⟩).response.status = "busy" ∧
     (start_video_scraping (some "https://youtu.be/x")
        ⟨[], none, "scraping_video", none⟩).threadsStarted = 0)
    ∧ ((start_channel_scraping initialScrapingResults).response.status = "started" ∧
       (start_channel_scraping initialScrapingResults).threadsStarted = 1) := by
  constructor
  · exact (scrape_start_busy_guard.2.2.1 ⟨[], none, "scraping_video", none⟩
      "https://youtu.be/x" (by decide)).mpr (by decide)
  · exact scrape_start_busy_guard.2.1 initialScrapingResults (by decide)

/-- The per-channel loop of `scrape_channels` is the map that keeps the
`process_channel` result on success and substitutes the error entry on
failure. -/
theorem scrapeChannelsLoop_eq_map (run : String → String → Except String ChannelEntry) :
    ∀ l : List (String × String),
      scrapeChannelsLoop run l = l.map (fun p =>
        match run p.1 p.2 with
        | .ok r => r
        | .error e => ⟨p.1, p.2, 0, none, some e⟩) := by
  intro l
  induction l with
  | nil => rfl
  | cons p rest ih =>
    cases p with
    | mk n u => simp [scrapeChannelsLoop, ih]

/-- C5: with the scraper constructed and closed successfully, whatever the
per-channel outcomes, `scrape_channels` ends with status
`channels_complete` and one result entry per configured channel in the
original order; a channel whose processing raised `e` contributes the
entry `name`, `url`, `video_count = 0`, `error = e`. -/
theorem scrape_channels_error_entries (st : ScrapingResults)
    (run : String → String → Except String ChannelEntry) :
    (scrape_channels st (.ok ()) run (.ok ())).status = "channels_complete"
    ∧ (scrape_channels st (.ok ()) run (.ok ())).channels =
        channelsConfig.map (fun p =>
          match run p.1 p.2 with
          | .ok r => r
          | .error e => ⟨p.1, p.2, 0, none, some e⟩)
    ∧ (scrape_channels st (.ok ()) run (.ok ())).channels.length
        = channelsConfig.length := by
  refine ⟨rfl, ?_, ?_⟩
  · show scrapeChannelsLoop run channelsConfig = _
    exact scrapeChannelsLoop_eq_map run channelsConfig
  · show (scrapeChannelsLoop run channelsConfig).length = _
    rw [scrapeChannelsLoop_eq_map run channelsConfig, List.length_map]

/-- Witness for C5: a run in which exactly the second configured channel
raises produces three entries in order, the failing one recorded with
`video_count` 0 and the error string. -/
theorem scrape_channels_error_entries_witness :
    (scrape_channels initialScrapingResults (.ok ())
        (fun n u => if n = "Krish Naik" then .error "boom"
                    else .ok ⟨n, u, 5, some 1, none⟩) (.ok ())).status
      = "channels_complete"
    ∧ (scrape_channels initialScrapingResults (.ok ())
        (fun n u => if n = "Krish Naik" then .error "boom"
                    else .ok ⟨n, u, 5, some 1, none⟩) (.ok ())).channels
      = [⟨"iNeuron", "https://www.youtube.com/@iNeuroniNtelligence", 5, some 1, none⟩,
         ⟨"Krish Naik", "https://www.youtube.com/@krishnaik06", 0, none, some "boom"⟩,
         ⟨"College Wallah", "https://www.youtube.com/@CollegeWallahbyPW", 5, some 1, none⟩] := by
  have h := scrape_channels_error_entries initialScrapingResults
    (fun n u => if n = "Krish Naik" then .error "boom"
                else .ok ⟨n, u, 5, some 1, none⟩)
  exact ⟨h.1, by rw [h.2.1]; decide⟩

/-- A selector attempt that does not produce usable text: the element
lookup raises, or the element's text strips to the empty string. -/
def selectorSkipped (q : TextQuery) (s : String) : Prop :=
  q s = none ∨ ∃ t, q s = some t ∧ pyStrip t = ""

theorem selectorLoop_skip (q : TextQuery) {s : String} (h : selectorSkipped q s)
    (rest : List String) (d : String) :
    selectorLoop q (s :: rest) d = selectorLoop q rest d := by
  rcases h with h | ⟨t, ht, he⟩
  · simp [selectorLoop, h]
  · simp [selectorLoop, ht, he]

theorem selectorLoop_exhausted (q : TextQuery) (sels : List String) (d : String)
    (h : ∀ s ∈ sels, selectorSkipped q s) :
    selectorLoop q sels d = d := by
  induction sels with
  | nil => rfl
  | cons s rest ih =>
    rw [selectorLoop_skip q (h s (by simp)) rest d]
    exact ih (fun s hs => h s (by simp [hs]))

theorem selectorLoop_found (q : TextQuery) (pre post : List String)
    (sel : String) (d t : String) (hpre : ∀ s ∈ pre, selectorSkipped q s)
    (hq : q sel = some t) (hne : pyStrip t ≠ "") :
    selectorLoop q (pre ++ sel :: post) d = pyStrip t := by
  induction pre with
  | nil => simp [selectorLoop, hq, hne]
  | cons s rest ih =>
    rw [List.cons_append, selectorLoop_skip q (hpre s (by simp)) _ d]
    exact ih (fun s hs => hpre s (by simp [hs]))

/-- C3: for title and description extraction the selectors are tried in
their listed order; the result is the stripped text of the first selector
that is found with non-empty stripped text, and only when every selector
fails or strips to empty is the default returned. -/
theorem title_details_selector_order (q : TextQuery) :
    (∀ (pre post : List String) (sel t : String),
        titleSelectors = pre ++ sel :: post →
        (∀ s ∈ pre, selectorSkipped q s) → q sel = some t → pyStrip t ≠ "" →
        get_video_title q = pyStrip t)
    ∧ ((∀ s ∈ titleSelectors, selectorSkipped q s) →
        get_video_title q = "Unknown Title")
    ∧ (∀ (pre post : List String) (sel t : String),
        detailSelectors = pre ++ sel :: post →
        (∀ s ∈ pre, selectorSkipped q s) → q sel = some t → pyStrip t ≠ "" →
        get_video_details q = pyStrip t)
    ∧ ((∀ s ∈ detailSelectors, selectorSkipped q s) →
        get_video_details q = "No description available") := by
  refine ⟨fun pre post sel t hsplit hpre hq hne => ?_, fun h => ?_,
          fun pre post sel t hsplit hpre hq hne => ?_, fun h => ?_⟩
  · unfold get_video_title
    rw [hsplit]
    exact selectorLoop_found q pre post sel _ t hpre hq hne
  · exact selectorLoop_exhausted q titleSelectors _ h
  · unfold get_video_details
    rw [hsplit]
    exact selectorLoop_found q pre post sel _ t hpre hq hne
  · exact selectorLoop_exhausted q detailSelectors _ h

/-- Witness for C3: a page on which only the third title selector `h1`
resolves, with padded text; the title is its stripped text and the
description falls back to its default. -/
theorem title_details_selector_order_witness :
    get_video_title (fun s => if s = "h1" then some "  My Title  " else none)
      = "My Title"
    ∧ get_video_details (fun s => if s = "h1" then some "  My Title  " else none)
      = "No description available" := by
  have h := title_details_selector_order
    (fun s => if s = "h1" then some "  My Title  " else none)
  constructor
  · have := h.1 ["h1 yt-formatted-string", "h1.title"]
      ["ytd-video-primary-info-renderer h1", "#title h1"] "h1" "  My Title  "
      (by decide)
      (by
        intro s hs
        left
        fin_cases hs <;> decide)
      (by decide) (by decide)
    simpa using this
  · exact h.2.2.2 (by
      intro s hs
      left
      fin_cases hs <;> decide)

theorem likesLoop_all_none (qe : String → Option (List LikeElem))
    (sels : List String) (h : ∀ s ∈ sels, qe s = none) :
    likesLoop qe sels = 0 := by
  induction sels with
  | nil => rfl
  | cons s rest ih =>
    rw [likesLoop, h s (by simp)]
    exact ih (fun s hs => h s (by simp [hs]))

theorem commentSelectorLoop_all_none (qc : String → Option (List CElem))
    (maxC : ℕ) (sels : List String) (h : ∀ s ∈ sels, qc s = none) :
    commentSelectorLoop maxC qc sels = [] := by
  induction sels with
  | nil => rfl
  | cons s rest ih =>
    rw [commentSelectorLoop, h s (by simp)]
    exact ih (fun s hs => h s (by simp [hs]))

/-- C2: when every extraction attempt fails — every title selector, every
likes selector and every comment selector raises — the extractors return
their sentinels (`Unknown Title`, 0 likes, the fixed two-element
placeholder comment list), and `get_video_data` still returns a value, so
no exception from an individual extraction step reaches its caller. -/
theorem extractors_sentinels_on_failure (p : Page)
    (ht : ∀ s ∈ titleSelectors, p.qText s = none)
    (hl : ∀ s ∈ likesSelectors, p.qLikes s = none)
    (hc : ∀ s ∈ commentSelectors, p.qComments s = none) :
    get_video_title p.qText = "Unknown Title"
    ∧ get_video_likes p.likesScrollOk p.qLikes = 0
    ∧ get_video_comments p.commentsScrollOk p.qComments = placeholderComments
    ∧ get_video_data true p = some
        { title := "Unknown Title"
          details := get_video_details p.qText
          likes := 0
          comments := placeholderComments } := by
  have h1 : get_video_title p.qText = "Unknown Title" :=
    selectorLoop_exhausted p.qText titleSelectors _
      (fun s hs => Or.inl (ht s hs))
  have h2 : get_video_likes p.likesScrollOk p.qLikes = 0 := by
    unfold get_video_likes
    cases p.likesScrollOk with
    | false => rfl
    | true => simpa using likesLoop_all_none p.qLikes likesSelectors hl
  have h3 : get_video_comments p.commentsScrollOk p.qComments = placeholderComments := by
    unfold get_video_comments
    cases p.commentsScrollOk with
    | false => rfl
    | true => simp [commentSelectorLoop_all_none p.qComments 5 commentSelectors hc]
  refine ⟨h1, h2, h3, ?_⟩
  unfold get_video_data
  rw [if_pos rfl, h1, h2, h3]

/-- Witness for C2: the page on which every query raises. -/
theorem extractors_sentinels_on_failure_witness :
    get_video_title (Page.qText ⟨fun _ => none, true, fun _ => none, true, fun _ => none⟩)
      = "Unknown Title"
    ∧ get_video_likes true (fun _ => none) = 0
    ∧ get_video_comments true (fun _ => none) = placeholderComments := by
  have h := extractors_sentinels_on_failure
    ⟨fun _ => none, true, fun _ => none, true, fun _ => none⟩
    (fun s _ => rfl) (fun s _ => rfl) (fun s _ => rfl)
  exact ⟨h.1, h.2.1, h.2.2.1⟩

theorem videoCountScan1_pos {ts : List String} {c : ℤ}
    (h : videoCountScan1 ts = some c) : 0 < c := by
  induction ts with
  | nil => exact absurd h (by simp [videoCountScan1])
  | cons t rest ih =>
    rw [videoCountScan1] at h
    by_cases h1 : containsSubStr "video" (pyLower t)
    · rw [if_pos h1] at h
      by_cases h2 : parse_video_count (pyLower t) > 0
      · rw [if_pos h2] at h
        exact Option.some_injective _ h ▸ h2
      · rw [if_neg h2] at h
        exact ih h
    · rw [if_neg h1] at h
      exact ih h

theorem videoCountScan2_pos {ts : List String} {c : ℤ}
    (h : videoCountScan2 ts = some c) : 0 < c := by
  induction ts with
  | nil => exact absurd h (by simp [videoCountScan2])
  | cons t rest ih =>
    rw [videoCountScan2] at h
    by_cases h1 : containsSubStr "video" (pyLower t)
    · rw [if_pos h1] at h
      by_cases h2 : parse_video_count t > 0
      · rw [if_pos h2] at h
        exact Option.some_injective _ h ▸ h2
      · rw [if_neg h2] at h
        exact ih h
    · rw [if_neg h1] at h
      exact ih h

theorem videoCountScan1_none (ts : List String)
    (h : ∀ t ∈ ts, containsSubStr "video" (pyLower t) →
         parse_video_count (pyLower t) ≤ 0) :
    videoCountScan1 ts = none := by
  induction ts with
  | nil => rfl
  | cons t rest ih =>
    rw [videoCountScan1]
    by_cases h1 : containsSubStr "video" (pyLower t)
    · rw [if_pos h1, if_neg (by simpa using h t (by simp) h1)]
      exact ih (fun t ht hv => h t (by simp [ht]) hv)
    · rw [if_neg h1]
      exact ih (fun t ht hv => h t (by simp [ht]) hv)

theorem videoCountScan2_none (ts : List String)
    (h : ∀ t ∈ ts, containsSubStr "video" (pyLower t) →
         parse_video_count t ≤ 0) :
    videoCountScan2 ts = none := by
  induction ts with
  | nil => rfl
  | cons t rest ih =>
    rw [videoCountScan2]
    by_cases h1 : containsSubStr "video" (pyLower t)
    · rw [if_pos h1, if_neg (by simpa using h t (by simp) h1)]
      exact ih (fun t ht hv => h t (by simp [ht]) hv)
    · rw [if_neg h1]
      exact ih (fun t ht hv => h t (by simp [ht]) hv)

/-- C10: `_find_video_count` is always strictly positive — when no query
yields a strictly positive parsed count it returns the hard-coded default
100, never 0 — and `get_channel_video_count` returns 0 exactly on an
escaping exception (e.g. navigation failure), its result being strictly
positive otherwise. -/
theorem find_video_count_default_and_positive :
    (∀ m1 m2, 0 < find_video_count m1 m2)
    ∧ (∀ m1 m2,
        (∀ t ∈ m1.getD [], containsSubStr "video" (pyLower t) →
          parse_video_count (pyLower t) ≤ 0) →
        (∀ t ∈ m2.getD [], containsSubStr "video" (pyLower t) →
          parse_video_count t ≤ 0) →
        find_video_count m1 m2 = 100)
    ∧ (∀ e, get_channel_video_count (.error e) = 0)
    ∧ (∀ m1 m2, 0 < get_channel_video_count (.ok (m1, m2))) := by
  have hpos : ∀ m1 m2, 0 < find_video_count m1 m2 := by
    intro m1 m2
    rw [find_video_count.eq_def]
    rcases m1 with _ | ts1
    · rcases m2 with _ | ts2
      · norm_num
      · cases h2 : videoCountScan2 ts2 with
        | none => norm_num [h2]
        | some c => simpa [h2] using videoCountScan2_pos h2
    · cases h1 : videoCountScan1 ts1 with
      | none =>
        rcases m2 with _ | ts2
        · norm_num [h1]
        · cases h2 : videoCountScan2 ts2 with
          | none => norm_num [h1, h2]
          | some c => simpa [h1, h2] using videoCountScan2_pos h2
      | some c => simpa [h1] using videoCountScan1_pos h1
  refine ⟨hpos, fun m1 m2 hm1 hm2 => ?_, fun e => rfl, fun m1 m2 => hpos m1 m2⟩
  rw [find_video_count.eq_def]
  rcases m1 with _ | ts1 <;> rcases m2 with _ | ts2 <;>
    simp_all [videoCountScan1_none, videoCountScan2_none]

/-- Witness for C10: with both query methods raising, the count is the
default 100, and a navigation failure yields 0. -/
theorem find_video_count_default_witness :
    find_video_count (some []) none = 100
    ∧ get_channel_video_count (.error "timeout") = 0 :=
  ⟨find_video_count_default_and_positive.2.1 (some []) none (by simp) (by simp),
   find_video_count_default_and_positive.2.2.1 "timeout"⟩

theorem find?_append_of_none {α : Type} (p : α → Bool) (l1 l2 : List α)
    (h : l1.find? p = none) : (l1 ++ l2).find? p = l2.find? p := by
  induction l1 with
  | nil => rfl
  | cons a l ih =>
    cases hp : p a with
    | false =>
      have h' : l.find? p = none := by simpa [List.find?, hp] using h
      simpa [List.find?, hp] using ih h'
    | true => simp [List.find?, hp] at h

theorem map_eq_self_of {α : Type} (l : List α) (f : α → α)
    (h : ∀ x ∈ l, f x = x) : l.map f = l := by
  induction l with
  | nil => rfl
  | cons a t ih =>
    rw [List.map_cons, h a (by simp), ih (fun x hx => h x (by simp [hx]))]

theorem filter_eq_nil_of {α : Type} (l : List α) (p : α → Bool)
    (h : ∀ x ∈ l, p x = false) : l.filter p = [] := by
  induction l with
  | nil => rfl
  | cons a t ih =>
    rw [List.filter_cons, h a (by simp)]
    exact ih (fun x hx => h x (by simp [hx]))

/-- C8: `save_channel_data` is idempotent in the channel URL.  Starting
from a table with no row for `url` and all ids below the AUTO_INCREMENT
counter, the first call inserts a row with the fresh id and returns it;
the second call with the same `url` updates that row's `video_count`
(inserting nothing, so the row count is unchanged) and returns the
existing row's id; exactly one row with that `url` remains and it holds
the most recent `video_count`. -/
theorem save_channel_data_idempotent_url (db : ChannelTable)
    (n1 n2 url : String) (c1 c2 : ℤ)
    (hurl : ∀ r ∈ db.rows, r.url ≠ url)
    (hid : ∀ r ∈ db.rows, r.id < db.nextId) :
    (save_channel_data n1 url c1 db).1 = some db.nextId
    ∧ (save_channel_data n2 url c2 (save_channel_data n1 url c1 db).2).1
        = some db.nextId
    ∧ (save_channel_data n2 url c2 (save_channel_data n1 url c1 db).2).2.rows
        = db.rows ++ [⟨db.nextId, n1, url, c2⟩]
    ∧ (save_channel_data n2 url c2 (save_channel_data n1 url c1 db).2).2.rows.filter
        (fun r => r.url = url) = [⟨db.nextId, n1, url, c2⟩]
    ∧ (save_channel_data n2 url c2 (save_channel_data n1 url c1 db).2).2.rows.length
        = (save_channel_data n1 url c1 db).2.rows.length := by
  have hfind1 : db.rows.find? (fun r => r.url = url) = none :=
    List.find?_eq_none.mpr (fun r hr => by simp [hurl r hr])
  have hsave1 : save_channel_data n1 url c1 db =
      (some db.nextId,
       { rows := db.rows ++ [⟨db.nextId, n1, url, c1⟩], nextId := db.nextId + 1 }) := by
    rw [save_channel_data, hfind1]
  have hfind2 : (db.rows ++ [(⟨db.nextId, n1, url, c1⟩ : ChannelRow)]).find?
      (fun r => r.url = url) = some ⟨db.nextId, n1, url, c1⟩ := by
    rw [find?_append_of_none _ _ _ hfind1]
    simp [List.find?_cons]
  have hmap : (db.rows ++ [(⟨db.nextId, n1, url, c1⟩ : ChannelRow)]).map
      (fun x => if x.id = db.nextId then { x with video_count := c2 } else x)
      = db.rows ++ [⟨db.nextId, n1, url, c2⟩] := by
    rw [List.map_append,
        map_eq_self_of db.rows _
          (fun x hx => if_neg (Nat.ne_of_lt (hid x hx)))]
    simp
  have hsave2 : save_channel_data n2 url c2 (save_channel_data n1 url c1 db).2 =
      (some db.nextId,
       { rows := db.rows ++ [⟨db.nextId, n1, url, c2⟩], nextId := db.nextId + 1 }) := by
    rw [hsave1]
    rw [save_channel_data]
    simp only [hfind2, hmap]
  refine ⟨by rw [hsave1], by rw [hsave2], by rw [hsave2], ?_, by rw [hsave2, hsave1]; simp⟩
  rw [hsave2]
  have hfilter : db.rows.filter (fun r => decide (r.url = url)) = [] :=
    filter_eq_nil_of db.rows (fun r => decide (r.url = url))
      (fun r hr => by simpa using hurl r hr)
  simp only [List.filter_append, hfilter]
  simp

/-- Witness for C8: two saves of the same URL into an empty table leave a
single row with the latest count, both calls returning id 1. -/
theorem save_channel_data_idempotent_url_witness :
    (save_channel_data "Krish Naik" "https://www.youtube.com/@krishnaik06" 3
        (⟨[], 1⟩ : ChannelTable)).1 = some 1
    ∧ (save_channel_data "Other" "https://www.youtube.com/@krishnaik06" 7
        (save_channel_data "Krish Naik" "https://www.youtube.com/@krishnaik06" 3
          (⟨[], 1⟩ : ChannelTable)).2).2.rows
      = [⟨1, "Krish Naik", "https://www.youtube.com/@krishnaik06", 7⟩] := by
  have h := save_channel_data_idempotent_url ⟨[], 1⟩ "Krish Naik" "Other"
    "https://www.youtube.com/@krishnaik06" 3 7
    (fun r hr => absurd hr (List.not_mem_nil r))
    (fun r hr => absurd hr (List.not_mem_nil r))
  exact ⟨h.1, by simpa using h.2.2.1⟩

/-! ### The numeric-suffix parsers on well-formed numerals -/

/-- The ASCII character of a decimal digit. -/
def digitChar (d : Fin 10) : Char := Char.ofNat (48 + d.val)

/-- The value of a decimal digit list read most-significant first. -/
def digitListVal (l : List (Fin 10)) : ℕ :=
  l.foldl (fun a d => 10 * a + d.val) 0

/-- The numeral string `d1 [. d2] suf`, e.g. `1.2K` or `3M`. -/
def numeralString (d1 d2 : List (Fin 10)) (useDot : Bool) (suf : Char) : String :=
  String.mk (d1.map digitChar ++ (if useDot then '.' :: d2.map digitChar else []) ++ [suf])

/-- The rational value denoted by the numeral `d1 [. d2]`. -/
def numeralVal (d1 d2 : List (Fin 10)) (useDot : Bool) : ℚ :=
  (digitListVal d1 : ℚ)
    + if useDot then (digitListVal d2 : ℚ) / (10 : ℚ) ^ d2.length else 0

theorem digitChar_isDigit (d : Fin 10) : (digitChar d).isDigit = true := by
  fin_cases d <;> decide

theorem digitChar_toLower (d : Fin 10) : Char.toLower (digitChar d) = digitChar d := by
  fin_cases d <;> decide

theorem digitChar_toNat (d : Fin 10) : (digitChar d).toNat = 48 + d.val := by
  fin_cases d <;> decide

theorem digitChar_ne_comma (d : Fin 10) : digitChar d ≠ ',' := by
  fin_cases d <;> decide

theorem digitChar_ne_k (d : Fin 10) : digitChar d ≠ 'k' := by
  fin_cases d <;> decide

theorem digitChar_ne_m (d : Fin 10) : digitChar d ≠ 'm' := by
  fin_cases d <;> decide

theorem takeWhile_all_append (p : Char → Bool) (l r : List Char)
    (hl : ∀ c ∈ l, p c = true)
    (hr : ∀ c, r.head? = some c → p c = false) :
    (l ++ r).takeWhile p = l ∧ (l ++ r).dropWhile p = r := by
  induction l with
  | nil =>
    cases r with
    | nil => exact ⟨rfl, rfl⟩
    | cons c t =>
      have := hr c rfl
      simp [List.takeWhile_cons, List.dropWhile_cons, this]
  | cons a l ih =>
    have ha := hl a (by simp)
    have ih' := ih (fun c hc => hl c (by simp [hc]))
    simp [List.takeWhile_cons, List.dropWhile_cons, ha, ih'.1, ih'.2]

theorem filter_eq_self_of {α : Type} (l : List α) (p : α → Bool)
    (h : ∀ x ∈ l, p x = true) : l.filter p = l := by
  induction l with
  | nil => rfl
  | cons a t ih =>
    rw [List.filter_cons, h a (by simp), if_pos rfl]
    rw [ih (fun x hx => h x (by simp [hx]))]

theorem digits_all_isDigit (l : List (Fin 10)) :
    ∀ c ∈ l.map digitChar, Char.isDigit c = true := by
  intro c hc
  obtain ⟨d, _, rfl⟩ := List.mem_map.mp hc
  exact digitChar_isDigit d

theorem digitsVal_map_aux (l : List (Fin 10)) (a : ℕ) :
    (l.map digitChar).foldl (fun a c => 10 * a + (c.toNat - 48)) a
      = l.foldl (fun a d => 10 * a + d.val) a := by
  induction l generalizing a with
  | nil => rfl
  | cons d t ih =>
    rw [List.map_cons, List.foldl_cons, List.foldl_cons, digitChar_toNat d,
        Nat.add_sub_cancel_left]
    exact ih _

theorem digitsVal_map (l : List (Fin 10)) :
    digitsVal (l.map digitChar) = digitListVal l :=
  digitsVal_map_aux l 0

theorem firstNumberMatch_digit_head (d1 : List (Fin 10)) (h1 : d1 ≠ [])
    (rest : List Char) :
    firstNumberMatch (d1.map digitChar ++ rest)
      = some (matchNumber (d1.map digitChar ++ rest)) := by
  cases d1 with
  | nil => exact absurd rfl h1
  | cons d t =>
    rw [List.map_cons, List.cons_append, firstNumberMatch,
        if_pos (digitChar_isDigit d)]

theorem decimalValue_digits_only (d1 : List (Fin 10)) (h1 : d1 ≠ []) :
    decimalValue (d1.map digitChar) = some (digitListVal d1 : ℚ) := by
  have hsplit := takeWhile_all_append Char.isDigit (d1.map digitChar) []
    (digits_all_isDigit d1) (fun c hc => by simp at hc)
  rw [List.append_nil] at hsplit
  rw [decimalValue]
  simp only [hsplit.1, hsplit.2]
  rw [if_neg (by simpa using h1), digitsVal_map]

theorem decimalValue_digits_dot (d1 d2 : List (Fin 10)) (h1 : d1 ≠ []) :
    decimalValue (d1.map digitChar ++ '.' :: d2.map digitChar)
      = some ((digitListVal d1 : ℚ) + (digitListVal d2 : ℚ) / (10 : ℚ) ^ d2.length) := by
  have hsplit := takeWhile_all_append Char.isDigit (d1.map digitChar)
    ('.' :: d2.map digitChar) (digits_all_isDigit d1)
    (fun c hc => by
      simp only [List.head?_cons, Option.some.injEq] at hc
      rw [← hc]; decide)
  have hne : d1.map digitChar ≠ [] := by simpa using h1
  have hall : (d2.map digitChar).all Char.isDigit = true := by
    simpa [List.all_eq_true] using digits_all_isDigit d2
  simp [decimalValue, hsplit.1, hsplit.2, hne, hall, digitsVal_map, List.length_map]

theorem decimalValue_nonneg {cs : List Char} {q : ℚ} (h : decimalValue cs = some q) :
    0 ≤ q := by
  simp only [decimalValue] at h
  split at h
  · exact absurd h (by simp)
  split at h
  · simp only [Option.some.injEq] at h
    rw [← h]
    positivity
  split at h
  · simp only [Option.some.injEq] at h
    rw [← h]
    positivity
  · exact absurd h (by simp)

theorem pyIntOfChars_nonneg {cs : List Char} {n : ℤ} (h : pyIntOfChars cs = some n) :
    0 ≤ n := by
  rw [pyIntOfChars] at h
  by_cases hc : cs ≠ [] ∧ cs.all Char.isDigit
  · rw [if_pos hc] at h
    simp only [Option.some.injEq] at h
    rw [← h]
    exact Int.natCast_nonneg _
  · rw [if_neg hc] at h
    exact absurd h (by simp)

theorem log2_eq_of_bounds {q : ℚ} {e : ℤ} (hq : 0 < q)
    (h1 : (2 : ℚ) ^ e ≤ q) (h2 : q < (2 : ℚ) ^ (e + 1)) :
    Int.log 2 q = e := by
  have hA : (2 : ℚ) ^ Int.log 2 q ≤ q := by
    have := Int.zpow_log_le_self (b := 2) (R := ℚ) (by norm_num) hq
    push_cast at this
    exact this
  have hB : q < (2 : ℚ) ^ (Int.log 2 q + 1) := by
    have := Int.lt_zpow_succ_log_self (b := 2) (R := ℚ) (by norm_num) q
    push_cast at this
    exact this
  by_contra hne
  rcases lt_or_gt_of_ne hne with h | h
  · have hle : (2 : ℚ) ^ (Int.log 2 q + 1) ≤ (2 : ℚ) ^ e :=
      zpow_le_zpow_right₀ (by norm_num) (by omega)
    exact absurd (lt_of_lt_of_le hB (le_trans hle h1)) (lt_irrefl q)
  · have hle : (2 : ℚ) ^ (e + 1) ≤ (2 : ℚ) ^ (Int.log 2 q) :=
      zpow_le_zpow_right₀ (by norm_num) (by omega)
    exact absurd (lt_of_lt_of_le h2 (le_trans hle hA)) (lt_irrefl q)

theorem roundB64_eq_finite {q : ℚ} {e m : ℤ}
    (hq : 0 < q)
    (h1 : (2 : ℚ) ^ e ≤ q) (h2 : q < (2 : ℚ) ^ (e + 1))
    (hnormal : -1022 ≤ e)
    (hm : roundHalfEven (q / 2 ^ (e - 52)) = m)
    (hovf : (m : ℚ) * 2 ^ (e - 52) < (2 : ℚ) ^ (1024 : ℤ)) :
    roundB64 q = .finite ((m : ℚ) * 2 ^ (e - 52)) := by
  rw [roundB64, if_neg hq.ne', if_pos hq]
  simp only [roundB64Pos]
  rw [log2_eq_of_bounds hq h1 h2,
      show max (e - 52) (-1074 : ℤ) = e - 52 from max_eq_left (by omega),
      hm, if_neg (not_le.mpr hovf)]

theorem roundHalfEven_nonneg {q : ℚ} (h : 0 ≤ q) : 0 ≤ roundHalfEven q := by
  have hf : 0 ≤ ⌊q⌋ := Int.le_floor.mpr (by exact_mod_cast h)
  simp only [roundHalfEven]
  split_ifs <;> omega

theorem roundB64_finite_nonneg {q r : ℚ} (hq : 0 ≤ q)
    (h : roundB64 q = .finite r) : 0 ≤ r := by
  rw [roundB64] at h
  by_cases h0 : q = 0
  · rw [if_pos h0] at h
    injection h with h'
    rw [← h']
  · rw [if_neg h0, if_pos (lt_of_le_of_ne hq (Ne.symm h0))] at h
    simp only [roundB64Pos] at h
    split at h
    · exact absurd h (by simp)
    · injection h with h'
      rw [← h']
      have hm := roundHalfEven_nonneg
        (div_nonneg hq (le_of_lt (by positivity :
          (0 : ℚ) < 2 ^ max (Int.log 2 q - 52) (-1074))))
      exact mul_nonneg (by exact_mod_cast hm) (by positivity)

theorem pyTrunc_nonneg {q : ℚ} (h : 0 ≤ q) : 0 ≤ pyTrunc q := by
  rw [pyTrunc, if_neg (not_lt.mpr h)]
  exact Int.le_floor.mpr (by exact_mod_cast h)

theorem b64Mul_roundB64_finite_nonneg {v n r : ℚ} (hv : 0 ≤ v) (hn : 0 ≤ n)
    (h : b64Mul (roundB64 v) n = .finite r) : 0 ≤ r := by
  cases hb : roundB64 v with
  | inf =>
    rw [hb] at h
    exact absurd h (by simp [b64Mul])
  | finite a =>
    rw [hb] at h
    simp only [b64Mul] at h
    exact roundB64_finite_nonneg (mul_nonneg (roundB64_finite_nonneg hv hb) hn) h

theorem pyFloatOfChars_eq_some {cs : List Char} {f : PyFloat}
    (h : pyFloatOfChars cs = some f) : ∃ v : ℚ, 0 ≤ v ∧ f = roundB64 v := by
  cases hd : decimalValue cs with
  | none =>
    simp only [pyFloatOfChars, hd] at h
    exact Option.noConfusion h
  | some v =>
    simp only [pyFloatOfChars, hd, Option.some.injEq] at h
    exact ⟨v, decimalValue_nonneg hd, h.symm⟩

theorem b64ScaledTrunc_eq (v n : ℚ) (e1 m1 e2 m2 z : ℤ)
    (hv : 0 < v)
    (hv1 : (2 : ℚ) ^ e1 ≤ v) (hv2 : v < (2 : ℚ) ^ (e1 + 1)) (hne1 : -1022 ≤ e1)
    (hm1 : roundHalfEven (v / 2 ^ (e1 - 52)) = m1)
    (ho1 : (m1 : ℚ) * 2 ^ (e1 - 52) < (2 : ℚ) ^ (1024 : ℤ))
    (hp : 0 < (m1 : ℚ) * 2 ^ (e1 - 52) * n)
    (hw1 : (2 : ℚ) ^ e2 ≤ (m1 : ℚ) * 2 ^ (e1 - 52) * n)
    (hw2 : (m1 : ℚ) * 2 ^ (e1 - 52) * n < (2 : ℚ) ^ (e2 + 1)) (hne2 : -1022 ≤ e2)
    (hm2 : roundHalfEven ((m1 : ℚ) * 2 ^ (e1 - 52) * n / 2 ^ (e2 - 52)) = m2)
    (ho2 : (m2 : ℚ) * 2 ^ (e2 - 52) < (2 : ℚ) ^ (1024 : ℤ))
    (hz : pyTrunc ((m2 : ℚ) * 2 ^ (e2 - 52)) = z) :
    b64ScaledTrunc v n = z := by
  rw [b64ScaledTrunc.eq_def,
      roundB64_eq_finite hv hv1 hv2 hne1 hm1 ho1]
  simp only [b64Mul]
  rw [roundB64_eq_finite hp hw1 hw2 hne2 hm2 ho2]
  exact hz

theorem parse_on_core (core : List Char) (suf : Char) (q : ℚ)
    (hs : suf = 'K' ∨ suf = 'k' ∨ suf = 'M' ∨ suf = 'm')
    (hmatch : firstNumberMatch (core ++ [suf]) = some (core ++ [suf]))
    (hmem : ∀ c ∈ core, (∃ d : Fin 10, c = digitChar d) ∨ c = '.')
    (hfloat : decimalValue core = some q) :
    parseCountChars (core ++ [suf])
      = b64ScaledTrunc q (if suf = 'K' ∨ suf = 'k' then (1000 : ℚ) else 1000000) := by
  have hnocomma : (core ++ [suf]).filter (fun c => c ≠ ',') = core ++ [suf] :=
    filter_eq_self_of _ _ (fun c hc => by
      rcases List.mem_append.mp hc with h | h
      · rcases hmem c h with ⟨d, rfl⟩ | rfl
        · simpa using digitChar_ne_comma d
        · decide
      · rw [List.mem_singleton] at h
        subst h
        rcases hs with rfl | rfl | rfl | rfl <;> decide)
  have hcore_lower : core.map Char.toLower = core :=
    map_eq_self_of core _ (fun c hc => by
      rcases hmem c hc with ⟨d, rfl⟩ | rfl
      · exact digitChar_toLower d
      · decide)
  have hlower : (core ++ [suf]).map Char.toLower = core ++ [Char.toLower suf] := by
    rw [List.map_append, hcore_lower]
    rfl
  have hct : ((core ++ [suf]).filter (fun c => c ≠ ',')).map Char.toLower
      = core ++ [Char.toLower suf] := by
    rw [hnocomma, hlower]
  have hcore_ne_k : ∀ c ∈ core, decide (c ≠ 'k') = true := fun c hc => by
    rcases hmem c hc with ⟨d, rfl⟩ | rfl
    · simpa using digitChar_ne_k d
    · decide
  have hcore_ne_m : ∀ c ∈ core, decide (c ≠ 'm') = true := fun c hc => by
    rcases hmem c hc with ⟨d, rfl⟩ | rfl
    · simpa using digitChar_ne_m d
    · decide
  have hknotmem : ∀ x : Char, x ≠ 'k' → ¬ ('k' ∈ core ++ [x]) := by
    intro x hx hk
    rcases List.mem_append.mp hk with h | h
    · have := hcore_ne_k 'k' h
      simp at this
    · rw [List.mem_singleton] at h
      exact hx h.symm
  have hpf : pyFloatOfChars core = some (roundB64 q) := by
    simp only [pyFloatOfChars, hfloat]
  rw [parseCountChars.eq_def, hmatch]
  dsimp only
  rw [hct]
  rcases hs with rfl | rfl | rfl | rfl
  · rw [show Char.toLower 'K' = 'k' from by decide]
    rw [if_pos (show 'k' ∈ core ++ ['k'] by simp)]
    rw [show (core ++ ['k']).filter (fun c => c ≠ 'k') = core from by
      rw [List.filter_append, filter_eq_self_of core _ hcore_ne_k,
          show ([('k' : Char)].filter (fun c => c ≠ 'k')) = [] from by decide,
          List.append_nil]]
    rw [hpf]
    rw [if_pos (show ('K' : Char) = 'K' ∨ ('K' : Char) = 'k' from Or.inl rfl)]
    rfl
  · rw [show Char.toLower 'k' = 'k' from by decide]
    rw [if_pos (show 'k' ∈ core ++ ['k'] by simp)]
    rw [show (core ++ ['k']).filter (fun c => c ≠ 'k') = core from by
      rw [List.filter_append, filter_eq_self_of core _ hcore_ne_k,
          show ([('k' : Char)].filter (fun c => c ≠ 'k')) = [] from by decide,
          List.append_nil]]
    rw [hpf]
    rw [if_pos (show ('k' : Char) = 'K' ∨ ('k' : Char) = 'k' from Or.inr rfl)]
    rfl
  · rw [show Char.toLower 'M' = 'm' from by decide]
    rw [if_neg (hknotmem 'm' (by decide))]
    rw [if_pos (show 'm' ∈ core ++ ['m'] by simp)]
    rw [show (core ++ ['m']).filter (fun c => c ≠ 'm') = core from by
      rw [List.filter_append, filter_eq_self_of core _ hcore_ne_m,
          show ([('m' : Char)].filter (fun c => c ≠ 'm')) = [] from by decide,
          List.append_nil]]
    rw [hpf]
    rw [if_neg (show ¬ (('M' : Char) = 'K' ∨ ('M' : Char) = 'k') from by decide)]
    rfl
  · rw [show Char.toLower 'm' = 'm' from by decide]
    rw [if_neg (hknotmem 'm' (by decide))]
    rw [if_pos (show 'm' ∈ core ++ ['m'] by simp)]
    rw [show (core ++ ['m']).filter (fun c => c ≠ 'm') = core from by
      rw [List.filter_append, filter_eq_self_of core _ hcore_ne_m,
          show ([('m' : Char)].filter (fun c => c ≠ 'm')) = [] from by decide,
          List.append_nil]]
    rw [hpf]
    rw [if_neg (show ¬ (('m' : Char) = 'K' ∨ ('m' : Char) = 'k') from by decide)]
    rfl

theorem match_full_no_dot (d1 : List (Fin 10)) (h1 : d1 ≠ []) (suf : Char)
    (hs : suf = 'K' ∨ suf = 'k' ∨ suf = 'M' ∨ suf = 'm') :
    firstNumberMatch (d1.map digitChar ++ [suf])
      = some (d1.map digitChar ++ [suf]) := by
  have hsufd : Char.isDigit suf = false := by
    rcases hs with rfl | rfl | rfl | rfl <;> decide
  have hsplit := takeWhile_all_append Char.isDigit (d1.map digitChar) [suf]
    (digits_all_isDigit d1)
    (fun c hc => by
      simp only [List.head?_cons, Option.some.injEq] at hc
      rw [← hc]; exact hsufd)
  rw [firstNumberMatch_digit_head d1 h1 [suf]]
  rw [matchNumber, hsplit.1, hsplit.2]
  rw [matchAfterDigits, if_neg (show ¬ (suf = ',' ∨ suf = '.') from by
    rcases hs with rfl | rfl | rfl | rfl <;> decide)]
  rw [matchSuffix, if_pos hs]

theorem match_full_dot (d1 d2 : List (Fin 10)) (h1 : d1 ≠ []) (suf : Char)
    (hs : suf = 'K' ∨ suf = 'k' ∨ suf = 'M' ∨ suf = 'm') :
    firstNumberMatch (d1.map digitChar ++ ('.' :: d2.map digitChar) ++ [suf])
      = some (d1.map digitChar ++ ('.' :: d2.map digitChar) ++ [suf]) := by
  have hsufd : Char.isDigit suf = false := by
    rcases hs with rfl | rfl | rfl | rfl <;> decide
  have hassoc : d1.map digitChar ++ ('.' :: d2.map digitChar) ++ [suf]
      = d1.map digitChar ++ ('.' :: (d2.map digitChar ++ [suf])) := by
    simp [List.append_assoc]
  rw [hassoc]
  have hsplit := takeWhile_all_append Char.isDigit (d1.map digitChar)
    ('.' :: (d2.map digitChar ++ [suf])) (digits_all_isDigit d1)
    (fun c hc => by
      simp only [List.head?_cons, Option.some.injEq] at hc
      rw [← hc]; decide)
  have hsplit2 := takeWhile_all_append Char.isDigit (d2.map digitChar) [suf]
    (digits_all_isDigit d2)
    (fun c hc => by
      simp only [List.head?_cons, Option.some.injEq] at hc
      rw [← hc]; exact hsufd)
  rw [firstNumberMatch_digit_head d1 h1 _]
  rw [matchNumber, hsplit.1, hsplit.2]
  rw [matchAfterDigits, if_pos (Or.inr rfl), hsplit2.1, hsplit2.2]
  rw [matchSuffix, if_pos hs]
  simp

/-- C1 (amended): on a numeral with a magnitude suffix — digits,
optionally a dot and more digits, then one of `K`, `k`, `M`, `m` —
`parse_video_count` returns the denoted number scaled by 1000 for `K`/`k`
and by 1000000 for `M`/`m` exactly as the source computes
`int(float(s) * scale)` in binary64 floating point: the number rounded to
the nearest double, multiplied by the scale with the product rounded
again, then truncated toward zero (0 if the product overflows to
infinity); `parse_likes_count` agrees; in particular `1.2K` parses to
1200 and `3M` to 3000000 (see the witness). -/
theorem parse_count_magnitude_suffix (d1 d2 : List (Fin 10)) (useDot : Bool)
    (suf : Char) (h1 : d1 ≠ [])
    (hs : suf = 'K' ∨ suf = 'k' ∨ suf = 'M' ∨ suf = 'm') :
    parse_video_count (numeralString d1 d2 useDot suf)
      = b64ScaledTrunc (numeralVal d1 d2 useDot)
          (if suf = 'K' ∨ suf = 'k' then (1000 : ℚ) else 1000000)
    ∧ parse_likes_count (numeralString d1 d2 useDot suf)
      = b64ScaledTrunc (numeralVal d1 d2 useDot)
          (if suf = 'K' ∨ suf = 'k' then (1000 : ℚ) else 1000000) := by
  have hmain : parse_video_count (numeralString d1 d2 useDot suf)
      = b64ScaledTrunc (numeralVal d1 d2 useDot)
          (if suf = 'K' ∨ suf = 'k' then (1000 : ℚ) else 1000000) := by
    cases useDot with
    | false =>
      have hcore : (numeralString d1 d2 false suf).data = d1.map digitChar ++ [suf] := by
        show d1.map digitChar ++ (if false then '.' :: d2.map digitChar else []) ++ [suf] = _
        simp
      show parseCountChars (numeralString d1 d2 false suf).data = _
      rw [hcore]
      rw [parse_on_core (d1.map digitChar) suf (numeralVal d1 d2 false) hs
          (match_full_no_dot d1 h1 suf hs)
          (fun c hc =>
            Or.inl (by
              obtain ⟨d, _, rfl⟩ := List.mem_map.mp hc
              exact ⟨d, rfl⟩))
          (by rw [decimalValue_digits_only d1 h1]; simp [numeralVal])]
    | true =>
      have hcore : (numeralString d1 d2 true suf).data
          = d1.map digitChar ++ ('.' :: d2.map digitChar) ++ [suf] := by
        show d1.map digitChar ++ (if true then '.' :: d2.map digitChar else []) ++ [suf] = _
        simp
      show parseCountChars (numeralString d1 d2 true suf).data = _
      rw [hcore]
      rw [parse_on_core (d1.map digitChar ++ ('.' :: d2.map digitChar)) suf
          (numeralVal d1 d2 true) hs
          (match_full_dot d1 d2 h1 suf hs)
          (fun c hc => by
            rcases List.mem_append.mp hc with h | h
            · exact Or.inl (by
                obtain ⟨d, _, rfl⟩ := List.mem_map.mp h
                exact ⟨d, rfl⟩)
            · rcases List.mem_cons.mp h with rfl | h
              · exact Or.inr rfl
              · exact Or.inl (by
                  obtain ⟨d, _, rfl⟩ := List.mem_map.mp h
                  exact ⟨d, rfl⟩))
          (by rw [decimalValue_digits_dot d1 d2 h1]; simp [numeralVal])]
  exact ⟨hmain, hmain⟩

/-- Witness for the amended C1: the spec's two examples, for both
parsers; in binary64 `float('1.2') * 1000` rounds back up to exactly
1200.0 even though `float('1.2')` is slightly below 1.2. -/
theorem parse_count_magnitude_suffix_witness :
    parse_video_count "1.2K" = 1200 ∧ parse_likes_count "1.2K" = 1200
    ∧ parse_video_count "3M" = 3000000 ∧ parse_likes_count "3M" = 3000000 := by
  have hK := parse_count_magnitude_suffix [1] [2] true 'K' (by decide) (Or.inl rfl)
  have hM := parse_count_magnitude_suffix [3] [] false 'M' (by decide)
    (Or.inr (Or.inr (Or.inl rfl)))
  have eK : numeralString [1] [2] true 'K' = "1.2K" := by decide
  have eM : numeralString [3] [] false 'M' = "3M" := by decide
  have hvK : numeralVal [1] [2] true = 6 / 5 := by
    norm_num [numeralVal, show digitListVal [1] = 1 from rfl,
      show digitListVal [2] = 2 from rfl]
  have hvM : numeralVal [3] [] false = 3 := by
    norm_num [numeralVal, show digitListVal [3] = 3 from rfl]
  have vK : b64ScaledTrunc (6 / 5 : ℚ) 1000 = 1200 :=
    b64ScaledTrunc_eq (6 / 5) 1000 0 5404319552844595 10 5277655813324800 1200
      (by norm_num) (by norm_num) (by norm_num) (by norm_num)
      (by norm_num [roundHalfEven]) (by norm_num)
      (by norm_num) (by norm_num) (by norm_num) (by norm_num)
      (by norm_num [roundHalfEven]) (by norm_num)
      (by norm_num [pyTrunc])
  have vM : b64ScaledTrunc (3 : ℚ) 1000000 = 3000000 :=
    b64ScaledTrunc_eq 3 1000000 1 6755399441055744 21 6442450944000000 3000000
      (by norm_num) (by norm_num) (by norm_num) (by norm_num)
      (by norm_num [roundHalfEven]) (by norm_num)
      (by norm_num) (by norm_num) (by norm_num) (by norm_num)
      (by norm_num [roundHalfEven]) (by norm_num)
      (by norm_num [pyTrunc])
  rw [eK, hvK, if_pos (Or.inl (rfl : ('K' : Char) = 'K')), vK] at hK
  rw [eM, hvM, if_neg (by decide : ¬ (('M' : Char) = 'K' ∨ ('M' : Char) = 'k')), vM] at hM
  exact ⟨hK.1, hK.2, hM.1, hM.2⟩

/-- C1 as stated is false of the program: on the in-domain numeral
`1.015K` the claimed value — the number times 1000 truncated — is 1015,
but the source computes `int(float('1.015') * 1000)` in binary64, where
`float('1.015')` is slightly below 1.015 and the product is slightly
below 1015, so both parsers return 1014. -/
theorem parse_count_exact_scaling_fails :
    parse_video_count (numeralString [1] [0, 1, 5] true 'K')
      ≠ ⌊numeralVal [1] [0, 1, 5] true * (1000 : ℚ)⌋
    ∧ numeralString [1] [0, 1, 5] true 'K' = "1.015K"
    ∧ parse_video_count "1.015K" = 1014
    ∧ parse_likes_count "1.015K" = 1014
    ∧ ⌊numeralVal [1] [0, 1, 5] true * (1000 : ℚ)⌋ = 1015 := by
  have estr : numeralString [1] [0, 1, 5] true 'K' = "1.015K" := by decide
  have hval : numeralVal [1] [0, 1, 5] true = 203 / 200 := by
    norm_num [numeralVal, show digitListVal [1] = 1 from rfl,
      show digitListVal [0, 1, 5] = 15 from rfl]
  have hparse : parseCountChars ("1.015K".data) = b64ScaledTrunc (203 / 200) 1000 := by
    have hdata : "1.015K".data
        = (List.map digitChar [1] ++ ('.' :: List.map digitChar [0, 1, 5])) ++ ['K'] := by
      decide
    rw [hdata]
    rw [parse_on_core (List.map digitChar [1] ++ ('.' :: List.map digitChar [0, 1, 5]))
        'K' (203 / 200) (Or.inl rfl)
        (match_full_dot [1] [0, 1, 5] (by decide) 'K' (Or.inl rfl))
        (by decide)
        (by
          rw [decimalValue_digits_dot [1] [0, 1, 5] (by decide)]
          norm_num [show digitListVal [1] = 1 from rfl,
            show digitListVal [0, 1, 5] = 15 from rfl])]
    rw [if_pos (Or.inl (rfl : ('K' : Char) = 'K'))]
  have heval : b64ScaledTrunc ((203 : ℚ) / 200) 1000 = 1014 :=
    b64ScaledTrunc_eq (203 / 200) 1000 0 4571153621781053 9 8928034417541119 1014
      (by norm_num) (by norm_num) (by norm_num) (by norm_num)
      (by norm_num [roundHalfEven]) (by norm_num)
      (by norm_num) (by norm_num) (by norm_num) (by norm_num)
      (by norm_num [roundHalfEven]) (by norm_num)
      (by norm_num [pyTrunc])
  have hfloor : ⌊numeralVal [1] [0, 1, 5] true * (1000 : ℚ)⌋ = 1015 := by
    rw [hval]
    norm_num
  have hv : parse_video_count "1.015K" = 1014 := by
    show parseCountChars ("1.015K".data) = 1014
    rw [hparse, heval]
  have hl : parse_likes_count "1.015K" = 1014 := hv
  refine ⟨?_, estr, hv, hl, hfloor⟩
  rw [estr, hv, hfloor]
  norm_num

/-- C9: `parse_video_count` and `parse_likes_count` are extensionally
equal — their bodies are identical — and their common result is always
non-negative, on every input string. -/
theorem parse_counts_agree_nonneg (s : String) :
    parse_video_count s = parse_likes_count s ∧ 0 ≤ parse_video_count s := by
  have hnn : ∀ cs : List Char, 0 ≤ parseCountChars cs := by
    intro cs
    rw [parseCountChars.eq_def]
    cases h : firstNumberMatch cs with
    | none => exact le_refl 0
    | some m =>
      dsimp only
      by_cases hk : 'k' ∈ (m.filter (fun c => c ≠ ',')).map Char.toLower
      · rw [if_pos hk]
        cases hf : pyFloatOfChars (((m.filter (fun c => c ≠ ',')).map Char.toLower).filter
            (fun c => c ≠ 'k')) with
        | none => exact le_refl 0
        | some f =>
          obtain ⟨v, hv0, rfl⟩ := pyFloatOfChars_eq_some hf
          dsimp only
          cases hb : b64Mul (roundB64 v) 1000 with
          | inf => exact le_refl (0 : ℤ)
          | finite r =>
            show 0 ≤ pyTrunc r
            exact pyTrunc_nonneg (b64Mul_roundB64_finite_nonneg hv0 (by norm_num) hb)
      · rw [if_neg hk]
        by_cases hm : 'm' ∈ (m.filter (fun c => c ≠ ',')).map Char.toLower
        · rw [if_pos hm]
          cases hf : pyFloatOfChars (((m.filter (fun c => c ≠ ',')).map Char.toLower).filter
              (fun c => c ≠ 'm')) with
          | none => exact le_refl 0
          | some f =>
            obtain ⟨v, hv0, rfl⟩ := pyFloatOfChars_eq_some hf
            dsimp only
            cases hb : b64Mul (roundB64 v) 1000000 with
            | inf => exact le_refl (0 : ℤ)
            | finite r =>
              show 0 ≤ pyTrunc r
              exact pyTrunc_nonneg (b64Mul_roundB64_finite_nonneg hv0 (by norm_num) hb)
        · rw [if_neg hm]
          cases hi : pyIntOfChars ((m.filter (fun c => c ≠ ',')).map Char.toLower) with
          | none => exact le_refl 0
          | some n =>
            show (0 : ℤ) ≤ n
            exact pyIntOfChars_nonneg hi
  exact ⟨rfl, hnn s.data⟩

end YTScraper
